import Mathlib

/-!
# TaskFlow server — shallow embedding and verification

Shallow embedding of the Express route handlers in `server/routes.ts` and the
token helpers in `server/auth.ts` of the TaskFlow task-management server.
The database (Prisma over PostgreSQL) is modelled as an explicit record of
row lists; each route handler becomes a pure function from the database state
and the request data to an HTTP response and the successor state.

JavaScript conventions preserved by the embedding:
* a request-body field that may be absent (`undefined`) is an `Option`;
  a nullable field that may also be explicitly `null` is an `Option (Option _)`
  (outer `none` = absent, `some none` = explicit `null`);
* `x || d` on strings is `jsOr`: the default is taken when the field is absent
  or the empty string (both falsy);
* `dueDate ? new Date(dueDate) : null` is `jsDate`.
-/

namespace TaskFlow

/-- HTTP response statuses produced by the handlers. -/
inductive HStatus where
  | ok
  | badRequest
  | unauthorized
  | forbidden
  | notFound
  | serverError
deriving Repr, DecidableEq

/-- `User` row (Prisma model User). -/
structure User where
  id : String
  email : String
  username : String
  password : String
  displayName : String
  avatarUrl : Option String
deriving Repr, DecidableEq

/-- `Project` row (Prisma model Project). -/
structure Project where
  id : String
  name : String
  description : Option String
  color : String
deriving Repr, DecidableEq

/-- `ProjectMember` row (Prisma model ProjectMember). -/
structure ProjectMember where
  projectId : String
  userId : String
  role : String
deriving Repr, DecidableEq

/-- `Task` row (Prisma model Task). `dueDate` is the date string the server
stored (`null` is `none`). -/
structure Task where
  id : String
  title : String
  description : Option String
  status : String
  priority : String
  dueDate : Option String
  projectId : String
  creatorId : String
  assigneeId : Option String
deriving Repr, DecidableEq

/-- `Comment` row (Prisma model Comment). -/
structure Comment where
  id : String
  content : String
  taskId : String
  userId : String
deriving Repr, DecidableEq

/-- `Attachment` row (Prisma model Attachment). -/
structure Attachment where
  id : String
  filename : String
  url : String
  size : Nat
  mimeType : String
  taskId : String
  uploaderId : String
deriving Repr, DecidableEq

/-- The relational database state. -/
structure DB where
  users : List User
  projects : List Project
  members : List ProjectMember
  tasks : List Task
  comments : List Comment
  attachments : List Attachment
deriving Repr, DecidableEq

/-- JavaScript `v || d` for an optional string field: the default is used when
the field is absent or the empty string (both falsy). -/
def jsOr (v : Option String) (d : String) : String :=
  match v with
  | none => d
  | some s => if s = "" then d else s

/-- JavaScript `v ? new Date(v) : null` for a date field that may be absent,
`null`, or a string (the empty string is falsy and yields `null`). -/
def jsDate (v : Option String) : Option String :=
  match v with
  | none => none
  | some s => if s = "" then none else some s

/-- The membership sub-query `members: { some: { userId: uid } }` scoped to
project `pid`: is there a `ProjectMember` row linking `uid` to `pid`? -/
def isMember (db : DB) (uid : String) (pid : String) : Bool :=
  db.members.any (fun m => m.projectId == pid && m.userId == uid)

/-! ## GET /api/projects/:id -/

/-- `GET /api/projects/:id`: `prisma.project.findFirst` with the membership
predicate inside the `where` clause; `null` result is a 404. -/
def getProject (db : DB) (uid : String) (pid : String) : HStatus × Option Project :=
  match db.projects.find? (fun p => p.id == pid && isMember db uid p.id) with
  | some p => (HStatus.ok, some p)
  | none => (HStatus.notFound, none)

/-! ## DELETE /api/projects/:id -/

/-- Modelled from the spec: the Prisma schema (`prisma/schema.prisma`, which
declares the relations' `onDelete` rules) is not under `src/`; per the spec,
project "deletion cascades to members and tasks", and comments and attachments
belong to their task, so the rows of the deleted project's tasks go with them.
Removes the project row(s) with id `pid` and every row transitively owned. -/
def cascadeDeleteProject (db : DB) (pid : String) : DB :=
  let deadTasks := db.tasks.filter (fun t => t.projectId == pid)
  { db with
    projects := db.projects.filter (fun p => p.id != pid)
    members := db.members.filter (fun m => m.projectId != pid)
    tasks := db.tasks.filter (fun t => t.projectId != pid)
    comments := db.comments.filter (fun c => !(deadTasks.any (fun t => t.id == c.taskId)))
    attachments := db.attachments.filter (fun a => !(deadTasks.any (fun t => t.id == a.taskId))) }

/-- `DELETE /api/projects/:id`: looks for a `ProjectMember` row with this
project, this user and role `"owner"`; absent row is a 403, otherwise
`prisma.project.delete` (a 500 when the project row itself is missing,
since Prisma's `delete` then throws). -/
def deleteProject (db : DB) (uid : String) (pid : String) : HStatus × DB :=
  match db.members.find? (fun m => m.projectId == pid && m.userId == uid && m.role == "owner") with
  | none => (HStatus.forbidden, db)
  | some _ =>
    if db.projects.any (fun p => p.id == pid) then
      (HStatus.ok, cascadeDeleteProject db pid)
    else
      (HStatus.serverError, db)

/-! ## POST /api/projects/:id/members -/

/-- `POST /api/projects/:id/members`: looks up the invite target by email
(404 when absent), rejects an existing membership with a 400, then creates the
membership with role `role || "member"`. The handler never consults the
requesting user `uid` beyond authentication: there is no check that the
requester is a member of the project. Creating a membership for a project id
with no project row violates the foreign key and surfaces as a 500. -/
def addMember (db : DB) (uid : String) (pid : String)
    (email : String) (role : Option String) : (HStatus × Option ProjectMember) × DB :=
  match db.users.find? (fun u => u.email == email) with
  | none => ((HStatus.notFound, none), db)
  | some u =>
    match db.members.find? (fun m => m.projectId == pid && m.userId == u.id) with
    | some _ => ((HStatus.badRequest, none), db)
    | none =>
      if db.projects.any (fun p => p.id == pid) then
        let m : ProjectMember := { projectId := pid, userId := u.id, role := jsOr role "member" }
        ((HStatus.ok, some m), { db with members := db.members ++ [m] })
      else
        ((HStatus.serverError, none), db)

/-! ## POST /api/tasks -/

/-- Request body of `POST /api/tasks`. The handler destructures only
`title, description, projectId, status, priority, dueDate, assigneeId`;
a client-supplied `creatorId` field is carried here to show it is ignored. -/
structure TaskCreateBody where
  title : Option String
  description : Option String
  projectId : Option String
  status : Option String
  priority : Option String
  dueDate : Option String
  assigneeId : Option String
  creatorId : Option String
deriving Repr, DecidableEq

/-- `POST /api/tasks`: 400 when `title` or `projectId` is falsy; then
`prisma.project.findFirst` scoped by membership (404 when `null`); then
creates the task with defaults `status || "todo"`, `priority || "medium"`,
`dueDate ? new Date(dueDate) : null` and `creatorId` stamped from the
authenticated identity. `newId` stands for the Prisma-generated row id. -/
def createTask (db : DB) (uid : String) (newId : String)
    (b : TaskCreateBody) : (HStatus × Option Task) × DB :=
  match b.title, b.projectId with
  | some title, some pid =>
    if title == "" || pid == "" then
      ((HStatus.badRequest, none), db)
    else
      match db.projects.find? (fun p => p.id == pid && isMember db uid p.id) with
      | none => ((HStatus.notFound, none), db)
      | some _ =>
        let t : Task :=
          { id := newId
            title := title
            description := b.description
            status := jsOr b.status "todo"
            priority := jsOr b.priority "medium"
            dueDate := jsDate b.dueDate
            projectId := pid
            creatorId := uid
            assigneeId := b.assigneeId }
        ((HStatus.ok, some t), { db with tasks := db.tasks ++ [t] })
  | _, _ => ((HStatus.badRequest, none), db)

/-! ## GET /api/tasks/:id -/

/-- `GET /api/tasks/:id`: `prisma.task.findFirst` with the task's project's
membership predicate inside the `where` clause; `null` result is a 404. -/
def getTask (db : DB) (uid : String) (tid : String) : HStatus × Option Task :=
  match db.tasks.find? (fun t => t.id == tid && isMember db uid t.projectId) with
  | some t => (HStatus.ok, some t)
  | none => (HStatus.notFound, none)

/-! ## PUT /api/tasks/:id -/

/-- Request body of `PUT /api/tasks/:id`. A field spread into the update data
only when `!== undefined`; `description` and `assigneeId` are nullable columns
so an explicit `null` (`some none`) clears them, and `dueDate` additionally
passes through `dueDate ? new Date(dueDate) : null`. -/
structure TaskUpdateBody where
  title : Option String
  description : Option (Option String)
  status : Option String
  priority : Option String
  dueDate : Option (Option String)
  assigneeId : Option (Option String)
deriving Repr, DecidableEq

/-- The update data of `PUT /api/tasks/:id` applied to one matched row:
each field is overwritten exactly when it was present in the body. -/
def applyTaskUpdate (b : TaskUpdateBody) (t : Task) : Task :=
  { t with
    title := b.title.getD t.title
    description := b.description.getD t.description
    status := b.status.getD t.status
    priority := b.priority.getD t.priority
    dueDate := match b.dueDate with
      | none => t.dueDate
      | some v => jsDate v
    assigneeId := b.assigneeId.getD t.assigneeId }

/-- `PUT /api/tasks/:id`: `prisma.task.updateMany` scoped by id and
membership; a zero update count is a 404, otherwise the handler re-fetches the
row by id (`findUnique`) and returns it. -/
def updateTask (db : DB) (uid : String) (tid : String)
    (b : TaskUpdateBody) : (HStatus × Option Task) × DB :=
  let matched := db.tasks.filter (fun t => t.id == tid && isMember db uid t.projectId)
  if matched.isEmpty then
    ((HStatus.notFound, none), db)
  else
    let db' : DB :=
      { db with tasks := db.tasks.map (fun t =>
          if t.id == tid && isMember db uid t.projectId then applyTaskUpdate b t else t) }
    ((HStatus.ok, db'.tasks.find? (fun t => t.id == tid)), db')

/-! ## GET /api/team -/

/-- One element of the `GET /api/team` response: the selected profile fields
plus `_count.assignedTasks`. -/
structure TeamMemberOut where
  id : String
  username : String
  displayName : String
  avatarUrl : Option String
  email : String
  assignedTasks : Nat
deriving Repr, DecidableEq

/-- `GET /api/team`: collects the requester's membership project ids, then
returns every user holding a membership in one of those projects, annotated
with the count of all `Task` rows whose `assigneeId` is that user (the
`assignedTasks` relation is not scoped to any project). -/
def getTeam (db : DB) (uid : String) : List TeamMemberOut :=
  let projectIds := (db.members.filter (fun m => m.userId == uid)).map (fun m => m.projectId)
  (db.users.filter (fun u =>
      db.members.any (fun m => m.userId == u.id && projectIds.contains m.projectId))).map
    (fun u =>
      { id := u.id
        username := u.username
        displayName := u.displayName
        avatarUrl := u.avatarUrl
        email := u.email
        assignedTasks := (db.tasks.filter (fun t => t.assigneeId == some u.id)).length })

/-! ## Token service (`server/auth.ts`)

`generateToken` and `verifyToken` wrap the `jsonwebtoken` library, which the
spec places out of scope ("token signing library internals"). The library is
idealised as an unforgeable MAC: a signature is sound exactly when it equals
the signing function of the server secret and the signed content, so a valid
signature binds the token to the secret, the payload and the expiry. -/

/-- The identity payload embedded in a token (`{ id, email, username }`). -/
structure Identity where
  id : String
  email : String
  username : String
deriving Repr, DecidableEq

/-- Modelled from the spec: the `jsonwebtoken` library internals are not under
`src/` (out of scope per the spec). A signed token carries its payload, its
expiry epoch, and a signature idealised as the triple of secret, payload and
expiry that a correct MAC binds it to. -/
structure SignedToken where
  payload : Identity
  exp : Nat
  sig : String × Identity × Nat
deriving Repr, DecidableEq

/-- A token as received on the wire: either unparseable garbage or a
structurally well-formed (not necessarily validly signed) token. -/
inductive TokenWire where
  | malformed
  | signed (t : SignedToken)
deriving Repr, DecidableEq

/-- `expiresIn: "7d"` in seconds. -/
def sevenDays : Nat := 7 * 24 * 60 * 60

/-- `generateToken` (`jwt.sign` with `expiresIn: "7d"`): embeds the identity
and an expiry seven days from issuance, signed with the server secret. -/
def generateToken (secret : String) (u : Identity) (now : Nat) : SignedToken :=
  { payload := u, exp := now + sevenDays, sig := (secret, u, now + sevenDays) }

/-- `verifyToken` (`jwt.verify` inside `try`/`catch`): `none` on a malformed
token, a signature not produced with this secret over this content, or an
expired token; otherwise the decoded identity payload. -/
def verifyToken (secret : String) (w : TokenWire) (now : Nat) : Option Identity :=
  match w with
  | TokenWire.malformed => none
  | TokenWire.signed t =>
    if t.sig = (secret, t.payload, t.exp) ∧ now < t.exp then some t.payload else none

/-! ## Task-state reachability

The spec's task invariant quantifies over every task state reachable by the
task endpoints; the operations below are the two that write task rows. -/

/-- One task-writing request: `POST /api/tasks` or `PUT /api/tasks/:id`. -/
inductive TaskOp where
  | create (uid : String) (newId : String) (b : TaskCreateBody)
  | update (uid : String) (tid : String) (b : TaskUpdateBody)
deriving Repr

/-- The database transition of one task-writing request. -/
def applyTaskOp (db : DB) : TaskOp → DB
  | TaskOp.create uid newId b => (createTask db uid newId b).2
  | TaskOp.update uid tid b => (updateTask db uid tid b).2

/-- The database after a sequence of task-writing requests. -/
def applyTaskOps (db : DB) (ops : List TaskOp) : DB :=
  ops.foldl applyTaskOp db

/-- The status vocabulary of the spec's data model. -/
def validStatus (s : String) : Bool :=
  s == "todo" || s == "in_progress" || s == "in_review" || s == "completed"

/-- The priority vocabulary of the spec's data model. -/
def validPriority (s : String) : Bool :=
  s == "low" || s == "medium" || s == "high"

/-- A task row whose status and priority are in the spec's vocabularies. -/
def taskVocabOk (t : Task) : Bool :=
  validStatus t.status && validPriority t.priority

/-- A task-writing request whose explicitly supplied status and priority
values (after the handler's falsy-defaulting on create) lie in the spec's
vocabularies. -/
def opVocabOk : TaskOp → Bool
  | TaskOp.create _ _ b =>
      validStatus (jsOr b.status "todo") && validPriority (jsOr b.priority "medium")
  | TaskOp.update _ _ b =>
      (match b.status with
       | none => true
       | some s => validStatus s) &&
      (match b.priority with
       | none => true
       | some s => validPriority s)

/-! ## Concrete fixtures -/

/-- A registered user who owns project `p1`. -/
def alice : User :=
  { id := "u1", email := "alice@example.com", username := "alice"
    password := "hash1", displayName := "Alice", avatarUrl := none }

/-- A registered user who is not a member of `p1`. -/
def dave : User :=
  { id := "u2", email := "dave@example.com", username := "dave"
    password := "hash2", displayName := "Dave", avatarUrl := none }

/-- A registered user who is not a member of `p1`. -/
def carol : User :=
  { id := "u3", email := "carol@example.com", username := "carol"
    password := "hash3", displayName := "Carol", avatarUrl := none }

/-- A registered user who is a plain (non-owner) member of `p1`. -/
def bob : User :=
  { id := "u4", email := "bob@example.com", username := "bob"
    password := "hash4", displayName := "Bob", avatarUrl := none }

/-- The project addressed in the concrete scenarios. -/
def launch : Project :=
  { id := "p1", name := "Launch", description := none, color := "#2563EB" }

/-- A database with one project: alice is its owner, bob a plain member,
dave and carol are registered but hold no membership in it. -/
def dbOne : DB :=
  { users := [alice, dave, carol, bob]
    projects := [launch]
    members := [{ projectId := "p1", userId := "u1", role := "owner" },
                { projectId := "p1", userId := "u4", role := "member" }]
    tasks := []
    comments := []
    attachments := [] }

/-! ## Claim theorems -/

/-- C1: the claim says every endpoint addressing a project (or a resource
under it) by ID returns NotFound to a non-member, project deletion being the
sole exception. The member-add endpoint violates this: carol holds no
membership in `p1`, yet her `POST /api/projects/p1/members` inviting dave
succeeds with 200 and creates the membership — the handler never checks the
requester's membership. -/
theorem c1_member_add_ignores_requester_membership :
    isMember dbOne "u3" "p1" = false ∧
    (addMember dbOne "u3" "p1" "dave@example.com" none).1.1 = HStatus.ok ∧
    (addMember dbOne "u3" "p1" "dave@example.com" none).1.1 ≠ HStatus.notFound ∧
    ({ projectId := "p1", userId := "u2", role := "member" } : ProjectMember) ∈
      (addMember dbOne "u3" "p1" "dave@example.com" none).2.members := by
  decide

/-- C2: the claim says member-add succeeds only when the requesting identity
is itself a member of the project. The code never checks this: carol, not a
member of `p1`, successfully adds herself, and the omitted role defaults to
"member". -/
theorem c2_member_add_succeeds_for_nonmember_requester :
    isMember dbOne "u3" "p1" = false ∧
    (addMember dbOne "u3" "p1" "carol@example.com" none).1.1 = HStatus.ok ∧
    ({ projectId := "p1", userId := "u3", role := "member" } : ProjectMember) ∈
      (addMember dbOne "u3" "p1" "carol@example.com" none).2.members := by
  decide

/-- C2 (supporting): the parts of the member-add contract the code does
implement, on the same database: an unknown email is a 404, an
already-member target is a 400 conflict, and an explicit role is kept. -/
theorem member_add_target_checks :
    (addMember dbOne "u1" "p1" "nobody@example.com" none).1.1 = HStatus.notFound ∧
    (addMember dbOne "u1" "p1" "bob@example.com" none).1.1 = HStatus.badRequest ∧
    ({ projectId := "p1", userId := "u3", role := "admin" } : ProjectMember) ∈
      (addMember dbOne "u1" "p1" "carol@example.com" (some "admin")).2.members := by
  decide

/-- C3: for every project and every requester without an owner-role
membership row in it, `DELETE /api/projects/:id` returns Forbidden and leaves
the database — in particular the project row — unchanged. -/
theorem c3_nonowner_delete_forbidden (db : DB) (uid pid : String)
    (hrole : ∀ m ∈ db.members, m.projectId = pid → m.userId = uid → m.role ≠ "owner") :
    (deleteProject db uid pid).1 = HStatus.forbidden ∧
    (deleteProject db uid pid).2 = db ∧
    (∀ p ∈ db.projects, p ∈ (deleteProject db uid pid).2.projects) := by
  have hfind : db.members.find?
      (fun m => m.projectId == pid && m.userId == uid && m.role == "owner") = none := by
    rw [List.find?_eq_none]
    intro m hm
    simp only [Bool.and_eq_true, beq_iff_eq, not_and]
    intro h1 h2
    exact hrole m hm h1.1 h1.2 h2
  refine ⟨?_, ?_, ?_⟩ <;> simp [deleteProject, hfind]

/-- C3 witness: bob is a plain member of `p1`; his delete request is refused
with Forbidden and the project survives. -/
theorem c3_nonowner_delete_forbidden_witness :
    (deleteProject dbOne "u4" "p1").1 = HStatus.forbidden ∧
    (deleteProject dbOne "u4" "p1").2 = dbOne ∧
    (∀ p ∈ dbOne.projects, p ∈ (deleteProject dbOne "u4" "p1").2.projects) :=
  c3_nonowner_delete_forbidden dbOne "u4" "p1" (by decide)

/-- C9: the claim says every reachable task's status is in
{todo, in_progress, in_review, completed} and its priority in
{low, medium, high}. The handlers never validate a client-supplied value: a
single create request carrying status "banana" is stored verbatim. -/
theorem c9_invalid_status_reachable :
    ((applyTaskOps dbOne
        [TaskOp.create "u1" "t1"
          { title := some "Write docs", description := none, projectId := some "p1"
            status := some "banana", priority := none, dueDate := none
            assigneeId := none, creatorId := none }]).tasks.map Task.status) = ["banana"] ∧
    validStatus "banana" = false := by
  decide

/-- C4: when a requester holding an owner-role membership deletes a project
that exists, the response is success and the project row, all its membership
rows and all its task rows are gone; and if every task initially referenced
an existing project, that still holds afterwards (no orphaned tasks). -/
theorem c4_owner_delete_cascades (db : DB) (uid pid : String)
    (howner : ∃ m ∈ db.members, m.projectId = pid ∧ m.userId = uid ∧ m.role = "owner")
    (hproj : ∃ p ∈ db.projects, p.id = pid)
    (hinteg : ∀ t ∈ db.tasks, ∃ p ∈ db.projects, p.id = t.projectId) :
    (deleteProject db uid pid).1 = HStatus.ok ∧
    (∀ p ∈ (deleteProject db uid pid).2.projects, p.id ≠ pid) ∧
    (∀ m ∈ (deleteProject db uid pid).2.members, m.projectId ≠ pid) ∧
    (∀ t ∈ (deleteProject db uid pid).2.tasks, t.projectId ≠ pid) ∧
    (∀ t ∈ (deleteProject db uid pid).2.tasks,
      ∃ p ∈ (deleteProject db uid pid).2.projects, p.id = t.projectId) := by
  obtain ⟨m0, hm0, hm0p, hm0u, hm0r⟩ := howner
  obtain ⟨p0, hp0, hp0id⟩ := hproj
  have hsome : (db.members.find?
      (fun m => m.projectId == pid && m.userId == uid && m.role == "owner")).isSome := by
    rw [List.find?_isSome]
    exact ⟨m0, hm0, by simp [hm0p, hm0u, hm0r]⟩
  have hany : db.projects.any (fun p => p.id == pid) = true := by
    rw [List.any_eq_true]
    exact ⟨p0, hp0, by simp [hp0id]⟩
  obtain ⟨mf, hmf⟩ := Option.isSome_iff_exists.mp hsome
  have hdel : deleteProject db uid pid = (HStatus.ok, cascadeDeleteProject db pid) := by
    simp [deleteProject, hmf, hany]
  rw [hdel]
  refine ⟨rfl, ?_, ?_, ?_, ?_⟩
  · intro p hp
    have := (List.mem_filter.mp hp).2
    simpa using this
  · intro m hm
    have := (List.mem_filter.mp hm).2
    simpa using this
  · intro t ht
    have := (List.mem_filter.mp ht).2
    simpa using this
  · intro t ht
    obtain ⟨htmem, htne⟩ := List.mem_filter.mp ht
    obtain ⟨p, hp, hpid⟩ := hinteg t htmem
    refine ⟨p, List.mem_filter.mpr ⟨hp, ?_⟩, hpid⟩
    have : t.projectId ≠ pid := by simpa using htne
    simp [hpid, this]

/-- C4 witness: alice, owner of `p1`, deletes it on the concrete database;
the cascade conclusions hold there. -/
theorem c4_owner_delete_cascades_witness :
    (deleteProject dbOne "u1" "p1").1 = HStatus.ok ∧
    (∀ p ∈ (deleteProject dbOne "u1" "p1").2.projects, p.id ≠ "p1") ∧
    (∀ m ∈ (deleteProject dbOne "u1" "p1").2.members, m.projectId ≠ "p1") ∧
    (∀ t ∈ (deleteProject dbOne "u1" "p1").2.tasks, t.projectId ≠ "p1") ∧
    (∀ t ∈ (deleteProject dbOne "u1" "p1").2.tasks,
      ∃ p ∈ (deleteProject dbOne "u1" "p1").2.projects, p.id = t.projectId) :=
  c4_owner_delete_cascades dbOne "u1" "p1" (by decide) (by decide) (by decide)

/-- C5: a task created by a member of the target project gets status "todo"
when status is omitted, priority "medium" when priority is omitted, and its
`creatorId` is the authenticated identity — for every request body, hence
regardless of any client-supplied `creatorId` field. -/
theorem c5_create_task_defaults (db : DB) (uid newId : String) (b : TaskCreateBody)
    (title pid : String)
    (htitle : b.title = some title) (htitle' : title ≠ "")
    (hpid : b.projectId = some pid) (hpid' : pid ≠ "")
    (hproj : ∃ p ∈ db.projects, p.id = pid)
    (hmem : isMember db uid pid = true) :
    ∃ t : Task,
      (createTask db uid newId b).1 = (HStatus.ok, some t) ∧
      (b.status = none → t.status = "todo") ∧
      (b.priority = none → t.priority = "medium") ∧
      t.creatorId = uid ∧ t.title = title ∧ t.projectId = pid := by
  obtain ⟨p0, hp0, hp0id⟩ := hproj
  have hf : (db.projects.find? (fun p => p.id == pid && isMember db uid p.id)).isSome := by
    rw [List.find?_isSome]
    refine ⟨p0, hp0, ?_⟩
    simp [hp0id, hmem]
  obtain ⟨pf, hpf⟩ := Option.isSome_iff_exists.mp hf
  have hrun : (createTask db uid newId b).1 = (HStatus.ok, some
      { id := newId, title := title, description := b.description
        status := jsOr b.status "todo", priority := jsOr b.priority "medium"
        dueDate := jsDate b.dueDate, projectId := pid, creatorId := uid
        assigneeId := b.assigneeId }) := by
    simp [createTask, htitle, hpid, htitle', hpid', hpf]
  refine ⟨_, hrun, ?_, ?_, rfl, rfl, rfl⟩
  · intro hs; simp [hs, jsOr]
  · intro hp; simp [hp, jsOr]

/-- C5 witness: alice creates a task in `p1` with status, priority and
creatorId omitted from the body. -/
theorem c5_create_task_defaults_witness :
    ∃ t : Task,
      (createTask dbOne "u1" "t1"
        { title := some "Write docs", description := none, projectId := some "p1"
          status := none, priority := none, dueDate := none
          assigneeId := none, creatorId := some "u2" }).1 = (HStatus.ok, some t) ∧
      (({ title := some "Write docs", description := none, projectId := some "p1"
          status := none, priority := none, dueDate := none
          assigneeId := none, creatorId := some "u2" } : TaskCreateBody).status = none →
        t.status = "todo") ∧
      (({ title := some "Write docs", description := none, projectId := some "p1"
          status := none, priority := none, dueDate := none
          assigneeId := none, creatorId := some "u2" } : TaskCreateBody).priority = none →
        t.priority = "medium") ∧
      t.creatorId = "u1" ∧ t.title = "Write docs" ∧ t.projectId = "p1" :=
  c5_create_task_defaults dbOne "u1" "t1" _ "Write docs" "p1"
    rfl (by decide) rfl (by decide) (by decide) (by decide)

/-- C6: `PUT /api/tasks/:id` by a member of the task's project modifies
exactly the fields present in the request body: the updated row keeps every
omitted field's prior value, takes every present field's supplied value, and
an explicit `null` dueDate clears the stored dueDate. The row's identity
fields (`id`, `projectId`, `creatorId`) are never touched. -/
theorem c6_update_modifies_exactly_present_fields
    (db : DB) (uid tid : String) (b : TaskUpdateBody) (t : Task)
    (ht : t ∈ db.tasks) (hid : t.id = tid) (hmem : isMember db uid t.projectId = true) :
    (updateTask db uid tid b).1.1 = HStatus.ok ∧
    ∃ t' ∈ (updateTask db uid tid b).2.tasks,
      t'.id = t.id ∧ t'.projectId = t.projectId ∧ t'.creatorId = t.creatorId ∧
      (b.title = none → t'.title = t.title) ∧
      (∀ s, b.title = some s → t'.title = s) ∧
      (b.description = none → t'.description = t.description) ∧
      (∀ v, b.description = some v → t'.description = v) ∧
      (b.status = none → t'.status = t.status) ∧
      (∀ s, b.status = some s → t'.status = s) ∧
      (b.priority = none → t'.priority = t.priority) ∧
      (∀ s, b.priority = some s → t'.priority = s) ∧
      (b.dueDate = none → t'.dueDate = t.dueDate) ∧
      (b.dueDate = some none → t'.dueDate = none) ∧
      (∀ s, b.dueDate = some (some s) → s ≠ "" → t'.dueDate = some s) ∧
      (b.assigneeId = none → t'.assigneeId = t.assigneeId) ∧
      (∀ v, b.assigneeId = some v → t'.assigneeId = v) := by
  have hpred : (fun u => u.id == tid && isMember db uid u.projectId) t = true := by
    simp [hid, hmem]
  have hne : (db.tasks.filter (fun u => u.id == tid && isMember db uid u.projectId)).isEmpty = false := by
    have : t ∈ db.tasks.filter (fun u => u.id == tid && isMember db uid u.projectId) :=
      List.mem_filter.mpr ⟨ht, hpred⟩
    rcases hcase : db.tasks.filter (fun u => u.id == tid && isMember db uid u.projectId) with _ | _
    · rw [hcase] at this; cases this
    · rw [hcase]; rfl
  constructor
  · simp [updateTask, hne]
  · refine ⟨applyTaskUpdate b t, ?_, rfl, rfl, rfl, ?_, ?_, ?_, ?_, ?_, ?_, ?_, ?_, ?_, ?_, ?_, ?_, ?_⟩
    · have hmap : applyTaskUpdate b t ∈ db.tasks.map (fun u =>
          if u.id == tid && isMember db uid u.projectId then applyTaskUpdate b u else u) := by
        refine List.mem_map.mpr ⟨t, ht, ?_⟩
        simp [hpred]
      simp only [updateTask, hne]
      simpa using hmap
    · intro h; simp [applyTaskUpdate, h]
    · intro s h; simp [applyTaskUpdate, h]
    · intro h; simp [applyTaskUpdate, h]
    · intro v h; simp [applyTaskUpdate, h]
    · intro h; simp [applyTaskUpdate, h]
    · intro s h; simp [applyTaskUpdate, h]
    · intro h; simp [applyTaskUpdate, h]
    · intro s h; simp [applyTaskUpdate, h]
    · intro h; simp [applyTaskUpdate, h]
    · intro h; simp [applyTaskUpdate, h, jsDate]
    · intro s h hs; simp [applyTaskUpdate, h, jsDate, hs]
    · intro h; simp [applyTaskUpdate, h]
    · intro v h; simp [applyTaskUpdate, h]

/-- A task of project `p1`, used by the concrete update scenario. -/
def task0 : Task :=
  { id := "t1", title := "Write docs", description := some "first draft"
    status := "todo", priority := "medium", dueDate := some "2026-01-01"
    projectId := "p1", creatorId := "u1", assigneeId := none }

/-- `dbOne` with one task stored in `p1`. -/
def dbTask : DB := { dbOne with tasks := [task0] }

/-- A partial update: sets status to "completed" and clears dueDate with an
explicit `null`; every other field is absent. -/
def patchBody : TaskUpdateBody :=
  { title := none, description := none, status := some "completed"
    priority := none, dueDate := some none, assigneeId := none }

/-- C6 witness: bob applies `patchBody` to `task0`; the update succeeds and
the claimed frame conditions hold on the concrete run. -/
theorem c6_update_modifies_exactly_present_fields_witness :
    (updateTask dbTask "u4" "t1" patchBody).1.1 = HStatus.ok ∧
    ∃ t' ∈ (updateTask dbTask "u4" "t1" patchBody).2.tasks,
      t'.id = task0.id ∧ t'.projectId = task0.projectId ∧ t'.creatorId = task0.creatorId ∧
      (patchBody.title = none → t'.title = task0.title) ∧
      (∀ s, patchBody.title = some s → t'.title = s) ∧
      (patchBody.description = none → t'.description = task0.description) ∧
      (∀ v, patchBody.description = some v → t'.description = v) ∧
      (patchBody.status = none → t'.status = task0.status) ∧
      (∀ s, patchBody.status = some s → t'.status = s) ∧
      (patchBody.priority = none → t'.priority = task0.priority) ∧
      (∀ s, patchBody.priority = some s → t'.priority = s) ∧
      (patchBody.dueDate = none → t'.dueDate = task0.dueDate) ∧
      (patchBody.dueDate = some none → t'.dueDate = none) ∧
      (∀ s, patchBody.dueDate = some (some s) → s ≠ "" → t'.dueDate = some s) ∧
      (patchBody.assigneeId = none → t'.assigneeId = task0.assigneeId) ∧
      (∀ v, patchBody.assigneeId = some v → t'.assigneeId = v) :=
  c6_update_modifies_exactly_present_fields dbTask "u4" "t1" patchBody task0
    (by decide) rfl (by decide)

/-- C7: a task-creation request naming a project id that does not exist and
one naming an existing project the requester is not a member of produce the
same response — NotFound with no payload — and neither changes the stored
state, so the two cases are indistinguishable to the requester. -/
theorem c7_create_task_unauthorized_indistinguishable
    (dbA dbB : DB) (uidA uidB idA idB : String)
    (bA bB : TaskCreateBody) (titleA pidA titleB pidB : String)
    (hAt : bA.title = some titleA) (hAt' : titleA ≠ "")
    (hAp : bA.projectId = some pidA) (hAp' : pidA ≠ "")
    (hBt : bB.title = some titleB) (hBt' : titleB ≠ "")
    (hBp : bB.projectId = some pidB) (hBp' : pidB ≠ "")
    (hnoproj : ∀ p ∈ dbA.projects, p.id ≠ pidA)
    (hproj : ∃ p ∈ dbB.projects, p.id = pidB)
    (hnomem : isMember dbB uidB pidB = false) :
    (createTask dbA uidA idA bA).1 = (createTask dbB uidB idB bB).1 ∧
    (createTask dbA uidA idA bA).1 = (HStatus.notFound, none) ∧
    (createTask dbA uidA idA bA).2 = dbA ∧
    (createTask dbB uidB idB bB).2 = dbB := by
  have hfA : dbA.projects.find? (fun p => p.id == pidA && isMember dbA uidA p.id) = none := by
    rw [List.find?_eq_none]
    intro p hp
    simp only [Bool.and_eq_true, beq_iff_eq, not_and]
    intro h1 _
    exact hnoproj p hp h1
  have hfB : dbB.projects.find? (fun p => p.id == pidB && isMember dbB uidB p.id) = none := by
    rw [List.find?_eq_none]
    intro p hp
    simp only [Bool.and_eq_true, beq_iff_eq, not_and]
    intro h1 h2
    rw [h1] at h2
    rw [hnomem] at h2
    cases h2
  refine ⟨?_, ?_, ?_, ?_⟩ <;>
    simp [createTask, hAt, hAp, hAt', hAp', hBt, hBp, hBt', hBp', hfA, hfB]

/-- C7 witness: for carol (no membership in `p1`), creating a task in the
nonexistent project `p9` and creating one in the existing project `p1` give
identical NotFound responses and leave the database untouched. -/
theorem c7_create_task_unauthorized_indistinguishable_witness :
    (createTask dbOne "u3" "tA"
        { title := some "x", description := none, projectId := some "p9"
          status := none, priority := none, dueDate := none
          assigneeId := none, creatorId := none }).1 =
      (createTask dbOne "u3" "tB"
        { title := some "x", description := none, projectId := some "p1"
          status := none, priority := none, dueDate := none
          assigneeId := none, creatorId := none }).1 ∧
    (createTask dbOne "u3" "tA"
        { title := some "x", description := none, projectId := some "p9"
          status := none, priority := none, dueDate := none
          assigneeId := none, creatorId := none }).1 = (HStatus.notFound, none) ∧
    (createTask dbOne "u3" "tA"
        { title := some "x", description := none, projectId := some "p9"
          status := none, priority := none, dueDate := none
          assigneeId := none, creatorId := none }).2 = dbOne ∧
    (createTask dbOne "u3" "tB"
        { title := some "x", description := none, projectId := some "p1"
          status := none, priority := none, dueDate := none
          assigneeId := none, creatorId := none }).2 = dbOne :=
  c7_create_task_unauthorized_indistinguishable dbOne dbOne "u3" "u3" "tA" "tB"
    _ _ "x" "p9" "x" "p1" rfl (by decide) rfl (by decide) rfl (by decide) rfl (by decide)
    (by decide) (by decide) (by decide)

/-- C8: verifying a token issued for an identity before its 7-day expiry
returns exactly that identity; a malformed token, a token whose signature was
not produced with the server secret over its own content, and an expired
token all verify to `none`; and whenever verification returns an identity it
is the payload embedded in the verified token — never a different one. -/
theorem c8_token_roundtrip_fail_closed (secret : String) (u : Identity) (t0 t1 : Nat)
    (hfresh : t1 < t0 + sevenDays) :
    verifyToken secret (TokenWire.signed (generateToken secret u t0)) t1 = some u ∧
    verifyToken secret TokenWire.malformed t1 = none ∧
    (∀ t : SignedToken, t.sig ≠ (secret, t.payload, t.exp) →
      verifyToken secret (TokenWire.signed t) t1 = none) ∧
    (∀ t2 : Nat, t0 + sevenDays ≤ t2 →
      verifyToken secret (TokenWire.signed (generateToken secret u t0)) t2 = none) ∧
    (∀ (w : TokenWire) (i : Identity), verifyToken secret w t1 = some i →
      ∃ t : SignedToken, w = TokenWire.signed t ∧ i = t.payload) := by
  refine ⟨?_, rfl, ?_, ?_, ?_⟩
  · simp [verifyToken, generateToken, hfresh]
  · intro t hsig
    simp [verifyToken, hsig]
  · intro t2 h2
    simp [verifyToken, generateToken, Nat.not_lt.mpr h2]
  · intro w i h
    cases w with
    | malformed => cases h
    | signed t =>
      refine ⟨t, rfl, ?_⟩
      by_cases hc : t.sig = (secret, t.payload, t.exp) ∧ t1 < t.exp
      · simp only [verifyToken, if_pos hc] at h
        exact (Option.some.inj h).symm
      · simp only [verifyToken, if_neg hc] at h
        cases h

/-- C8 witness: a concrete identity issued at time 0 and verified at time 5
with secret "taskflow-secret-key". -/
theorem c8_token_roundtrip_fail_closed_witness :
    verifyToken "taskflow-secret-key"
        (TokenWire.signed (generateToken "taskflow-secret-key"
          { id := "u1", email := "alice@example.com", username := "alice" } 0)) 5 =
      some { id := "u1", email := "alice@example.com", username := "alice" } ∧
    verifyToken "taskflow-secret-key" TokenWire.malformed 5 = none ∧
    (∀ t : SignedToken, t.sig ≠ ("taskflow-secret-key", t.payload, t.exp) →
      verifyToken "taskflow-secret-key" (TokenWire.signed t) 5 = none) ∧
    (∀ t2 : Nat, 0 + sevenDays ≤ t2 →
      verifyToken "taskflow-secret-key"
        (TokenWire.signed (generateToken "taskflow-secret-key"
          { id := "u1", email := "alice@example.com", username := "alice" } 0)) t2 = none) ∧
    (∀ (w : TokenWire) (i : Identity),
      verifyToken "taskflow-secret-key" w 5 = some i →
      ∃ t : SignedToken, w = TokenWire.signed t ∧ i = t.payload) :=
  c8_token_roundtrip_fail_closed "taskflow-secret-key"
    { id := "u1", email := "alice@example.com", username := "alice" } 0 5 (by decide)

/-- One `POST /api/tasks` step keeps every stored task inside the spec's
status/priority vocabularies, provided the request's (defaulted) status and
priority values are in them. -/
theorem create_preserves_vocab (db : DB) (uid newId : String) (b : TaskCreateBody)
    (h0 : ∀ t ∈ db.tasks, taskVocabOk t = true)
    (hs : validStatus (jsOr b.status "todo") = true)
    (hp : validPriority (jsOr b.priority "medium") = true) :
    ∀ t ∈ (createTask db uid newId b).2.tasks, taskVocabOk t = true := by
  intro t ht
  unfold createTask at ht
  split at ht
  · split at ht
    · exact h0 t ht
    · split at ht
      · exact h0 t ht
      · rcases List.mem_append.mp ht with h | h
        · exact h0 t h
        · rw [List.mem_singleton] at h
          subst h
          simp [taskVocabOk, hs, hp]
  · exact h0 t ht

/-- One `PUT /api/tasks/:id` step keeps every stored task inside the spec's
status/priority vocabularies, provided any status or priority present in the
body is in them. -/
theorem update_preserves_vocab (db : DB) (uid tid : String) (b : TaskUpdateBody)
    (h0 : ∀ t ∈ db.tasks, taskVocabOk t = true)
    (hs : (match b.status with | none => true | some s => validStatus s) = true)
    (hp : (match b.priority with | none => true | some s => validPriority s) = true) :
    ∀ t ∈ (updateTask db uid tid b).2.tasks, taskVocabOk t = true := by
  intro t ht
  by_cases hem : (db.tasks.filter (fun u => u.id == tid && isMember db uid u.projectId)).isEmpty = true
  · have hrun : (updateTask db uid tid b).2 = db := by
      simp [updateTask, hem]
    rw [hrun] at ht
    exact h0 t ht
  · have hrun : (updateTask db uid tid b).2.tasks = db.tasks.map (fun u =>
        if u.id == tid && isMember db uid u.projectId then applyTaskUpdate b u else u) := by
      simp [updateTask, hem]
    rw [hrun] at ht
    simp only [List.mem_map] at ht
    obtain ⟨s0, hs0, hfs⟩ := ht
    subst hfs
    have hv : validStatus s0.status = true ∧ validPriority s0.priority = true := by
      simpa [taskVocabOk] using h0 s0 hs0
    by_cases hc : (s0.id == tid && isMember db uid s0.projectId) = true
    · rw [if_pos hc]
      have hst : validStatus ((applyTaskUpdate b s0).status) = true := by
        cases hbs : b.status with
        | none => simpa [applyTaskUpdate, hbs] using hv.1
        | some v => rw [hbs] at hs; simpa [applyTaskUpdate, hbs] using hs
      have hpr : validPriority ((applyTaskUpdate b s0).priority) = true := by
        cases hbp : b.priority with
        | none => simpa [applyTaskUpdate, hbp] using hv.2
        | some v => rw [hbp] at hp; simpa [applyTaskUpdate, hbp] using hp
      simp [taskVocabOk, hst, hpr]
    · rw [if_neg hc]
      exact h0 s0 hs0

/-- C9 (amended): after any sequence of task create and update requests whose
explicitly supplied status/priority values lie in the spec's vocabularies,
every stored task's status is in {todo, in_progress, in_review, completed}
and its priority in {low, medium, high} — the handlers themselves perform no
validation, so the assumption on the supplied values is necessary
(`c9_invalid_status_reachable`). -/
theorem c9_vocab_invariant_for_valid_inputs (db : DB) (ops : List TaskOp)
    (h0 : ∀ t ∈ db.tasks, taskVocabOk t = true)
    (hops : ∀ op ∈ ops, opVocabOk op = true) :
    ∀ t ∈ (applyTaskOps db ops).tasks, taskVocabOk t = true := by
  induction ops generalizing db with
  | nil => exact h0
  | cons op rest ih =>
    have hop := hops op (List.mem_cons_self op rest)
    have hstep : ∀ t ∈ (applyTaskOp db op).tasks, taskVocabOk t = true := by
      cases op with
      | create uid newId b =>
        have hb : validStatus (jsOr b.status "todo") = true ∧
            validPriority (jsOr b.priority "medium") = true := by
          simpa [opVocabOk] using hop
        exact create_preserves_vocab db uid newId b h0 hb.1 hb.2
      | update uid tid b =>
        have hb : (match b.status with | none => true | some s => validStatus s) = true ∧
            (match b.priority with | none => true | some s => validPriority s) = true := by
          simpa [opVocabOk] using hop
        exact update_preserves_vocab db uid tid b h0 hb.1 hb.2
    have hops' : ∀ op' ∈ rest, opVocabOk op' = true := by
      intro op' h'
      exact hops op' (List.mem_cons_of_mem op h')
    simpa [applyTaskOps] using ih (applyTaskOp db op) hstep hops'

/-- C9 (amended) witness: from the concrete database with one valid task, a
valid create followed by a valid status update leaves the updated task — a
member of the resulting state — inside the vocabularies. -/
theorem c9_vocab_invariant_witness :
    taskVocabOk (applyTaskUpdate patchBody task0) = true :=
  c9_vocab_invariant_for_valid_inputs dbTask
    [TaskOp.create "u1" "t2"
      { title := some "Ship it", description := none, projectId := some "p1"
        status := none, priority := some "high", dueDate := none
        assigneeId := none, creatorId := none },
     TaskOp.update "u4" "t1" patchBody]
    (by decide) (by decide) (applyTaskUpdate patchBody task0) (by decide)

/-- `vid` holds a membership in some project that `uid` is also a member of. -/
def sharesProject (db : DB) (uid : String) (vid : String) : Prop :=
  ∃ m ∈ db.members, m.userId = vid ∧
    ∃ m' ∈ db.members, m'.userId = uid ∧ m'.projectId = m.projectId

/-- The `where` predicate of the team query holds of an id exactly when that
id shares a project with the requester. -/
theorem team_filter_characterizes (db : DB) (uid : String) (v : String) :
    (db.members.any (fun m => m.userId == v &&
      ((db.members.filter (fun m' => m'.userId == uid)).map
        (fun m' => m'.projectId)).contains m.projectId)) = true ↔
    sharesProject db uid v := by
  rw [List.any_eq_true]
  constructor
  · rintro ⟨m, hm, hmp⟩
    simp only [Bool.and_eq_true, beq_iff_eq] at hmp
    obtain ⟨h1, h2⟩ := hmp
    have hmem : m.projectId ∈ (db.members.filter (fun m' => m'.userId == uid)).map
        (fun m' => m'.projectId) := by
      simpa using h2
    obtain ⟨m', hm'f, hm'p⟩ := List.mem_map.mp hmem
    obtain ⟨hm'mem, hm'u⟩ := List.mem_filter.mp hm'f
    exact ⟨m, hm, h1, m', hm'mem, by simpa using hm'u, hm'p⟩
  · rintro ⟨m, hm, hvu, m', hm', hu, hpp⟩
    refine ⟨m, hm, ?_⟩
    simp only [Bool.and_eq_true, beq_iff_eq]
    refine ⟨hvu, ?_⟩
    have hmem : m.projectId ∈ (db.members.filter (fun m' => m'.userId == uid)).map
        (fun m' => m'.projectId) :=
      List.mem_map.mpr ⟨m', List.mem_filter.mpr ⟨hm', by simp [hu]⟩, hpp⟩
    simpa using hmem

/-- C10: `GET /api/team` returns exactly the users sharing at least one
project with the requester — a user of the database has an entry in the
response iff they share a project with the requester, and every entry stems
from such a user — and each entry's `assignedTasks` is the count of all
stored tasks assigned to that user, unrestricted by project. -/
theorem c10_team_shared_users_with_counts (db : DB) (uid : String) :
    (∀ u ∈ db.users, ((∃ e ∈ getTeam db uid, e.id = u.id) ↔ sharesProject db uid u.id)) ∧
    (∀ e ∈ getTeam db uid,
      e.assignedTasks = (db.tasks.filter (fun t => t.assigneeId == some e.id)).length) ∧
    (∀ e ∈ getTeam db uid, ∃ u ∈ db.users, u.id = e.id ∧ sharesProject db uid u.id) := by
  have hteam : getTeam db uid =
      (db.users.filter (fun u => db.members.any (fun m => m.userId == u.id &&
        ((db.members.filter (fun m' => m'.userId == uid)).map
          (fun m' => m'.projectId)).contains m.projectId))).map
      (fun u =>
        { id := u.id, username := u.username, displayName := u.displayName
          avatarUrl := u.avatarUrl, email := u.email
          assignedTasks := (db.tasks.filter (fun t => t.assigneeId == some u.id)).length }) :=
    rfl
  refine ⟨?_, ?_, ?_⟩
  · intro u hu
    constructor
    · rintro ⟨e, he, heid⟩
      rw [hteam] at he
      obtain ⟨u', hu'f, hmk⟩ := List.mem_map.mp he
      obtain ⟨hu'mem, hu'q⟩ := List.mem_filter.mp hu'f
      have hid : u'.id = u.id := by rw [← heid, ← hmk]
      rw [← hid]
      exact (team_filter_characterizes db uid u'.id).mp hu'q
    · intro hsh
      have hq := (team_filter_characterizes db uid u.id).mpr hsh
      refine ⟨{ id := u.id, username := u.username, displayName := u.displayName
                avatarUrl := u.avatarUrl, email := u.email
                assignedTasks := (db.tasks.filter (fun t => t.assigneeId == some u.id)).length },
        ?_, rfl⟩
      rw [hteam]
      exact List.mem_map.mpr ⟨u, List.mem_filter.mpr ⟨hu, hq⟩, rfl⟩
  · intro e he
    rw [hteam] at he
    obtain ⟨u', _, hmk⟩ := List.mem_map.mp he
    rw [← hmk]
  · intro e he
    rw [hteam] at he
    obtain ⟨u', hu'f, hmk⟩ := List.mem_map.mp he
    obtain ⟨hu'mem, hu'q⟩ := List.mem_filter.mp hu'f
    refine ⟨u', hu'mem, by rw [← hmk], ?_⟩
    exact (team_filter_characterizes db uid u'.id).mp hu'q

/-- C10 witness: the theorem instantiated on the concrete database for
requester alice. -/
theorem c10_team_shared_users_with_counts_witness :
    (∀ u ∈ dbOne.users,
      ((∃ e ∈ getTeam dbOne "u1", e.id = u.id) ↔ sharesProject dbOne "u1" u.id)) ∧
    (∀ e ∈ getTeam dbOne "u1",
      e.assignedTasks = (dbOne.tasks.filter (fun t => t.assigneeId == some e.id)).length) ∧
    (∀ e ∈ getTeam dbOne "u1", ∃ u ∈ dbOne.users, u.id = e.id ∧ sharesProject dbOne "u1" u.id) :=
  c10_team_shared_users_with_counts dbOne "u1"

/-- Supporting uniformity fact for the scoped lookups: `GET /api/tasks/:id`
answers NotFound with no payload whenever no task with the requested id lies
in a project the requester belongs to — covering both a nonexistent task and
a task of a foreign project. -/
theorem task_get_scoped_notFound (db : DB) (uid : String) (tid : String)
    (h : ∀ t ∈ db.tasks, t.id = tid → isMember db uid t.projectId = false) :
    getTask db uid tid = (HStatus.notFound, none) := by
  have hf : db.tasks.find? (fun t => t.id == tid && isMember db uid t.projectId) = none := by
    rw [List.find?_eq_none]
    intro t ht
    simp only [Bool.and_eq_true, beq_iff_eq, not_and]
    intro h1 h2
    rw [h t ht h1] at h2
    cases h2
  simp [getTask, hf]

end TaskFlow
